import Mathlib

/-!
Verification development for the HelloWorld reflection activity
(`src/activity.py`).  The Python source is shallowly embedded: pure
computations become Lean functions, the `try`/`except` blocks become
`Except Unit` computations, and the event-driven close-interception flow
becomes an explicit step function on an activity state, driven by a list
of events (close requests, timer firings, dialog resolutions).
-/

namespace HW

/-- Values that can appear as the raw `timestamp` property of a datastore
record: the external interface says the store may hand back numeric or
string timestamps.  Python numerics are modelled as `Int` (the claims only
depend on ordering and on parseable-versus-unparseable, never on
fractional values). -/
inductive PyVal where
  | int (n : Int)
  | str (s : String)
deriving DecidableEq, Repr

/-- One raw record as returned by `datastore.find` in `_fetch_history`
(`src/activity.py:221`).  Each requested property may be missing from the
record, like a key missing from a Python dict.  The `uid` property is
requested but never read. -/
structure RawEntry where
  uid : Option String := none
  title : Option String := none
  description : Option String := none
  timestamp : Option PyVal := none
deriving DecidableEq, Repr

/-- Value of a decimal digit character, `none` on a non-digit. -/
def digitVal? (c : Char) : Option Nat :=
  if c.isDigit then some (c.toNat - 48) else none

/-- Accumulating left-to-right decimal parse of a character list,
failing on the first non-digit. -/
def parseDigitsAux : List Char → Nat → Option Nat
  | [], acc => some acc
  | c :: cs, acc =>
    match digitVal? c with
    | none => none
    | some d => parseDigitsAux cs (acc * 10 + d)

/-- Parse of an optional-sign decimal integer string, `none` when the
string is not numeric. -/
def pyParseInt? (s : String) : Option Int :=
  match s.data with
  | [] => none
  | '-' :: ds =>
    match ds with
    | [] => none
    | _ => (parseDigitsAux ds 0).map (fun n => -(n : Int))
  | '+' :: ds =>
    match ds with
    | [] => none
    | _ => (parseDigitsAux ds 0).map (fun n => (n : Int))
  | ds => (parseDigitsAux ds 0).map (fun n => (n : Int))

/-- Python `float(x)` applied to a raw timestamp value
(`src/activity.py:232`): identity on numerics, and on strings a parse
that raises `ValueError` (modelled as `.error ()`) when the string is not
numeric.  The model parses optional-sign integer strings; Python also
accepts decimal points, but no claim's input exercises that
difference. -/
def pyFloat : PyVal → Except Unit Int
  | .int n => .ok n
  | .str s =>
    match pyParseInt? s with
    | some n => .ok n
    | none => .error ()

/-- Sort key used at `src/activity.py:224`: `x.get('timestamp', 0)`, the
raw timestamp value with the integer `0` as dict-lookup default. -/
def tsKey (e : RawEntry) : PyVal := e.timestamp.getD (.int 0)

/-- Python `>=` on two sort keys, for the descending sort.  Two numerics
compare numerically and two strings lexicographically; a numeric against
a string raises `TypeError` in Python 3, which the sorting wrapper
`pySortByTsDesc` models by erroring before any such pair is compared, so
the mixed case below is unreachable and its value is irrelevant. -/
def pyValGE : PyVal → PyVal → Bool
  | .int a, .int b => b ≤ a
  | .str a, .str b => b ≤ a
  | _, _ => false

/-- Insert one record into a list already sorted by descending timestamp
key, keeping earlier records first among equal keys (Python's sort is
stable). -/
def insertDesc (e : RawEntry) : List RawEntry → List RawEntry
  | [] => [e]
  | f :: fs => if pyValGE (tsKey e) (tsKey f) then e :: f :: fs else f :: insertDesc e fs

/-- Stable sort by descending timestamp key, the extensional behaviour of
`results.sort(key=lambda x: x.get('timestamp', 0), reverse=True)` at
`src/activity.py:224` on lists whose keys are pairwise comparable. -/
def sortDesc : List RawEntry → List RawEntry
  | [] => []
  | e :: es => insertDesc e (sortDesc es)

/-- Whether a record's sort key is numeric. -/
def isIntTs (e : RawEntry) : Bool :=
  match tsKey e with
  | .int _ => true
  | .str _ => false

/-- The numeric value of a record's sort key, with string keys mapped to
an arbitrary value (only read under an `isIntTs` guard). -/
def intKey (e : RawEntry) : Int :=
  match tsKey e with
  | .int n => n
  | .str _ => 0

/-- Whether every sort key in the list is numeric, or every sort key is a
string: the lists on which Python's comparison-based sort cannot raise
`TypeError`. -/
def homogTs (rs : List RawEntry) : Bool :=
  rs.all isIntTs || rs.all (fun e => !isIntTs e)

/-- The `list.sort` call of `src/activity.py:224`.  On a list of length at
most one no comparison happens; otherwise a list mixing numeric and
string keys always has two adjacent keys of different types compared
during run detection, so the sort raises `TypeError` (modelled as
`.error ()`); homogeneous lists sort stably descending. -/
def pySortByTsDesc (rs : List RawEntry) : Except Unit (List RawEntry) :=
  if rs.length ≤ 1 || homogTs rs then .ok (sortDesc rs) else .error ()

/-- Stand-in for the C library call `time.ctime` used at
`src/activity.py:233` and `src/activity.py:194`: an injective rendering
of a timestamp to a display string.  No claim depends on the concrete
format produced by the platform. -/
def ctimeModel (t : Int) : String := "ctime " ++ toString t

/-- One summarised history entry as built by the loop at
`src/activity.py:228`.  The fields are optional because the prompt
generator receives these entries as Python dicts and reads them with
dict-lookup defaults; entries built by `_fetch_history` always populate
all four fields. -/
structure HistEntry where
  title : Option String := none
  description : Option String := none
  timestamp : Option Int := none
  time : Option String := none
deriving DecidableEq, Repr

/-- Conversion of one raw record into a summary dict, the loop body at
`src/activity.py:229`: dict-lookup defaults `'Untitled'` and `''`, and
`float` conversion of the raw timestamp, which can raise. -/
def convertEntry (e : RawEntry) : Except Unit HistEntry :=
  match pyFloat (tsKey e) with
  | .error u => .error u
  | .ok ts =>
    .ok { title := some (e.title.getD "Untitled"),
          description := some (e.description.getD ""),
          timestamp := some ts,
          time := some (ctimeModel ts) }

/-- Conversion of the first five sorted records, the loop at
`src/activity.py:228`: each record is converted in order and a raised
conversion error aborts the whole computation (to be caught by the
enclosing `except`). -/
def mapConvert : List RawEntry → Except Unit (List HistEntry)
  | [] => .ok []
  | e :: es =>
    match convertEntry e with
    | .error u => .error u
    | .ok h =>
      match mapConvert es with
      | .error u => .error u
      | .ok hs => .ok (h :: hs)

/-- The body of `HelloWorldActivity._fetch_history`
(`src/activity.py:204`) up to but excluding the surrounding
`try`/`except`.  `bundleId` is what `self.get_bundle_id()` returned
(`none` models Python `None`); a falsy bundle id returns the empty list
before the store is consulted.  `store` is what `datastore.find` returns,
or `.error ()` if the query raises; any error from the query, the sort or
the conversion propagates.  The `count` component of the find result is
never read and is omitted. -/
def fetchHistoryE (bundleId : Option String)
    (store : Except Unit (List RawEntry)) : Except Unit (List HistEntry) :=
  if bundleId.getD "" = "" then .ok []
  else
    match store with
    | .error u => .error u
    | .ok results =>
      match pySortByTsDesc results with
      | .error u => .error u
      | .ok sorted => mapConvert (sorted.take 5)

/-- `HelloWorldActivity._fetch_history` with its `except Exception`
handler (`src/activity.py:240`): any raised error is caught and the
function returns the empty list. -/
def fetchHistory (bundleId : Option String)
    (store : Except Unit (List RawEntry)) : List HistEntry :=
  match fetchHistoryE bundleId store with
  | .ok l => l
  | .error _ => []

/-- The context dict built in `close` (`src/activity.py:195`): the fetched
history and a current-state note. -/
structure Ctx where
  history : List HistEntry
  currentState : String
deriving DecidableEq, Repr

/-- The fixed generic prompt of `src/activity.py:65`. -/
def genericPrompt : String := "This looks like a new project! what are you planning to make?"

/-- The comparison prompt format string of `src/activity.py:60` applied
to a title and a time string. -/
def comparisonPrompt (title timeStr : String) : String :=
  "I see you worked on '" ++ title ++
    "' previously. How is your work today different from what you did on " ++
    timeStr ++ "?"

/-- The prompt computation of `ReflectionService._mock_api_response`
(`src/activity.py:53`): with more than one history entry it formats a
comparison prompt from the entry at index 1 with dict-lookup defaults
`'this activity'` and `'before'`; otherwise it returns the generic
prompt.  The `current_state` value is read by the source but never used. -/
def mockApiResponse (c : Ctx) : String :=
  match c.history with
  | _ :: lastEntry :: _ =>
    comparisonPrompt (lastEntry.title.getD "this activity") (lastEntry.time.getD "before")
  | _ => genericPrompt

/-- The activity's `metadata` mapping, a dict with string keys and string
values as far as this system touches it.  Modelled as an association
list; `self.metadata` being `None` is modelled by `Option` at the use
site. -/
abbrev Metadata := List (String × String)

/-- Python `metadata.get(k, dflt)`: the value at the first binding of the
key, or the default. -/
def mdGet (m : Metadata) (k dflt : String) : String :=
  match m.find? (fun p => p.1 == k) with
  | some p => p.2
  | none => dflt

/-- Python `metadata[k] = v`: replace the binding when the key is present,
append a binding otherwise. -/
def mdSet (m : Metadata) (k v : String) : Metadata :=
  if m.any (fun p => p.1 == k) then
    m.map (fun p => if p.1 == k then (k, v) else p)
  else m ++ [(k, v)]

/-- Python truthiness of `self.metadata` at `src/activity.py:254`: false
when the mapping is `None` or an empty dict. -/
def mdTruthy : Option Metadata → Bool
  | none => false
  | some m => !m.isEmpty

/-- The description update of `src/activity.py:256`: append `'\n\n'` only
when the existing description is truthy (non-empty), then append the
marker line and the answer. -/
def appendReflection (description answer : String) : String :=
  (if description = "" then description else description ++ "\n\n") ++
    ("--- Reflection ---\n" ++ answer)

deriving instance DecidableEq for Except

/-- The full state of one `HelloWorldActivity` instance together with the
observable effects this development tracks.  `pending` holds the contexts
captured by `GLib.timeout_add_seconds` callbacks not yet fired (FIFO, as
equal-delay GLib timeouts fire in scheduling order); `dialogs` holds the
prompts of `ReflectionDialog` windows shown and not yet resolved;
`shutdowns` counts invocations of the real shutdown
`activity.Activity.close`; `destroyed` records that the real shutdown has
run, after which the host delivers no further events to this instance;
`saveCount` counts `self.save()` calls; `bundleId` and `store` are the
environment seen by `_fetch_history`; `tick` is an abstract clock feeding
the `time.ctime()` call in `close`. -/
structure ActState where
  reflectionComplete : Bool
  metadata : Option Metadata
  saveCount : Nat
  pending : List Ctx
  dialogs : List String
  shutdowns : Nat
  destroyed : Bool
  bundleId : Option String
  store : Except Unit (List RawEntry)
  tick : Nat
deriving DecidableEq, Repr

/-- The `current_state` note built at `src/activity.py:194`. -/
def currentStateNote (t : Nat) : String :=
  "Activity stopped by user at " ++ ctimeModel (Int.ofNat t)

/-- The real shutdown `activity.Activity.close` invoked at
`src/activity.py:187`: part of the host framework, it tears the activity
instance down, so the instance is marked destroyed. -/
def realShutdown (st : ActState) : ActState :=
  { st with shutdowns := st.shutdowns + 1, destroyed := true }

/-- `HelloWorldActivity.close` (`src/activity.py:184`): with the
completion flag set or `skip_save` true it performs the real shutdown;
otherwise it fetches history, builds the context and schedules the
reflection prompt callback, then returns. -/
def closeAct (st : ActState) (skipSave : Bool) : ActState :=
  if st.reflectionComplete || skipSave then realShutdown st
  else
    let history := fetchHistory st.bundleId st.store
    let ctx : Ctx := { history := history, currentState := currentStateNote st.tick }
    { st with pending := st.pending ++ [ctx], tick := st.tick + 1 }

/-- `HelloWorldActivity._on_reflection_response` (`src/activity.py:249`):
`answer` is `none` for Skip and `some text` for Save.  A truthy (non-`None`,
non-empty) answer with a truthy metadata mapping appends to the
description and triggers `self.save()`; in every case the completion flag
is then set and `self.close()` is called again. -/
def onReflectionResponse (st : ActState) (answer : Option String) : ActState :=
  let st1 :=
    match answer with
    | some a =>
      if a = "" then st
      else
        match st.metadata with
        | some m =>
          if m.isEmpty then st
          else
            let description := mdGet m "description" ""
            let description := appendReflection description a
            { st with metadata := some (mdSet m "description" description),
                      saveCount := st.saveCount + 1 }
        | none => st
    | none => st
  closeAct { st1 with reflectionComplete := true } false

/-- Events the environment can deliver to one activity instance: a close
request (from the stop button via `_on_stop_clicked` or from the host,
with its `skip_save` flag), the firing of the earliest scheduled prompt
timeout (which shows the dialog, `src/activity.py:245`), and the user
resolving the earliest open dialog by Save (`_on_save`, with the field
text verbatim) or Skip (`_on_skip`). -/
inductive Ev where
  | close (skipSave : Bool)
  | promptReady
  | save (text : String)
  | skip
deriving DecidableEq, Repr

/-- One event delivered to the instance.  A destroyed instance receives
nothing.  `promptReady` pops the oldest pending context, generates the
prompt (`_mock_api_response`) and shows the dialog; `save`/`skip` resolve
the oldest open dialog through `_on_reflection_response`. -/
def stepEv (st : ActState) (e : Ev) : ActState :=
  if st.destroyed then st
  else
    match e with
    | .close sk => closeAct st sk
    | .promptReady =>
      match st.pending with
      | [] => st
      | c :: rest =>
        { st with pending := rest, dialogs := st.dialogs ++ [mockApiResponse c] }
    | .save t =>
      match st.dialogs with
      | [] => st
      | _ :: rest => onReflectionResponse { st with dialogs := rest } (some t)
    | .skip =>
      match st.dialogs with
      | [] => st
      | _ :: rest => onReflectionResponse { st with dialogs := rest } none

/-- Deliver a sequence of events. -/
def run (st : ActState) (es : List Ev) : ActState := es.foldl stepEv st

/-- A freshly constructed instance (`HelloWorldActivity.__init__`,
`src/activity.py:143`): the completion flag starts false, nothing is
pending or shown, and no shutdown has happened.  The metadata mapping,
bundle id and store behaviour are the host-supplied environment. -/
def initState (bundleId : Option String) (store : Except Unit (List RawEntry))
    (metadata : Option Metadata) : ActState :=
  { reflectionComplete := false, metadata := metadata, saveCount := 0,
    pending := [], dialogs := [], shutdowns := 0, destroyed := false,
    bundleId := bundleId, store := store, tick := 0 }

/-- The current description string of an instance, with the same
dict-lookup default the source uses. -/
def descOf (st : ActState) : String := mdGet (st.metadata.getD []) "description" ""

/-- Modelled from the spec: the host lifecycle outside `src/` — resuming
the same journal entry in a new activity instance.  The new instance is
fresh except that it is loaded with the metadata the previous instance
persisted. -/
def reopen (st : ActState) (bundleId : Option String)
    (store : Except Unit (List RawEntry)) : ActState :=
  initState bundleId store st.metadata

/-- Occurrence of `sub` somewhere inside `s`. -/
def strContains (s sub : String) : Prop := ∃ p q, s = p ++ sub ++ q

/-- Occurrence of `suffix` at the end of `s`. -/
def strEndsWith (s suffix : String) : Prop := ∃ p, s = p ++ suffix

/-- Replacing the bindings of a key that is present makes the first
binding of that key carry the new value. -/
theorem find?_mapReplace (m : Metadata) (k v : String)
    (h : m.any (fun p => p.1 == k) = true) :
    (m.map (fun p => if p.1 == k then (k, v) else p)).find? (fun p => p.1 == k) =
      some (k, v) := by
  induction m with
  | nil => simp at h
  | cons p rest ih =>
    by_cases hp : p.1 == k
    · rw [List.map_cons, if_pos hp, List.find?_cons_of_pos]
      simp
    · rw [List.map_cons, if_neg hp, List.find?_cons_of_neg]
      · simp only [List.any_cons, hp, Bool.false_or] at h
        exact ih h
      · simpa using hp

/-- After `mdSet`, looking the key up finds the new binding. -/
theorem find?_mdSet (m : Metadata) (k v : String) :
    (mdSet m k v).find? (fun p => p.1 == k) = some (k, v) := by
  unfold mdSet
  by_cases h : m.any (fun p => p.1 == k)
  · simp only [if_pos h]
    exact find?_mapReplace m k v h
  · simp only [if_neg h]
    rw [List.find?_append]
    have hn : m.find? (fun p => p.1 == k) = none := by
      apply List.find?_eq_none.mpr
      intro x hx hk
      exact h (List.any_eq_true.mpr ⟨x, hx, hk⟩)
    simp [hn, List.find?_cons]

/-- Reading back the key just written by `mdSet` yields the written
value. -/
theorem mdGet_mdSet_same (m : Metadata) (k v d : String) :
    mdGet (mdSet m k v) k d = v := by
  unfold mdGet
  rw [find?_mdSet]

/-- `mdSet` never produces the empty mapping. -/
theorem mdSet_ne_nil (m : Metadata) (k v : String) : mdSet m k v ≠ [] := by
  intro h
  have hf := find?_mdSet m k v
  rw [h] at hf
  simp [List.find?] at hf

/-- A reflection append always produces a non-empty description (the
marker line is always present). -/
theorem appendReflection_ne_empty (d a : String) : appendReflection d a ≠ "" := by
  intro h
  have h2 := congrArg String.length h
  have hm : ("--- Reflection ---\n").length = 19 := rfl
  by_cases hd : d = "" <;>
    simp only [appendReflection, hd, if_pos, if_neg, ite_true, ite_false,
      String.length_append, hm, String.length_empty] at h2 <;> omega

/-- A store that returns no records yields an empty history for every
bundle id. -/
theorem fetchHistory_ok_nil (b : Option String) : fetchHistory b (.ok []) = [] := by
  unfold fetchHistory fetchHistoryE
  by_cases hb : b.getD "" = "" <;>
    simp [hb, pySortByTsDesc, sortDesc, homogTs, mapConvert]

/-- A close request on a live instance whose completion flag is unset
does not shut down: it fetches history, builds the context and schedules
the prompt callback. -/
theorem close_noflag (s : ActState) (h1 : s.reflectionComplete = false)
    (hd : s.destroyed = false) :
    stepEv s (.close false) =
      { s with
        pending := s.pending ++ [⟨fetchHistory s.bundleId s.store, currentStateNote s.tick⟩],
        tick := s.tick + 1 } := by
  simp [stepEv, hd, closeAct, h1]

/-- Firing the earliest pending prompt callback pops its context and
shows one dialog with the generated prompt. -/
theorem promptReady_step (s : ActState) (c : Ctx) (rest : List Ctx)
    (hd : s.destroyed = false) (hp : s.pending = c :: rest) :
    stepEv s .promptReady =
      { s with pending := rest, dialogs := s.dialogs ++ [mockApiResponse c] } := by
  simp [stepEv, hd, hp]

/-- Counting form of `promptReady_step`, usable when only the length of
the pending queue is known. -/
theorem promptReady_counts (s : ActState) (hd : s.destroyed = false)
    (hp : s.pending ≠ []) :
    (stepEv s .promptReady).destroyed = false ∧
    (stepEv s .promptReady).shutdowns = s.shutdowns ∧
    (stepEv s .promptReady).dialogs.length = s.dialogs.length + 1 ∧
    (stepEv s .promptReady).pending.length + 1 = s.pending.length := by
  cases hc : s.pending with
  | nil => exact absurd hc hp
  | cons c rest => simp [stepEv, hd, hc]

/-- Resolving a dialog by Save with a non-empty answer on an instance
with a non-empty metadata mapping rewrites the description binding to
the appended reflection and bumps the save counter. -/
theorem save_step_meta (s : ActState) (a q : String) (rest : List String) (m : Metadata)
    (hd : s.destroyed = false) (hdl : s.dialogs = q :: rest)
    (ha : a ≠ "") (hm : s.metadata = some m) (hne : m ≠ []) :
    (stepEv s (.save a)).metadata =
      some (mdSet m "description" (appendReflection (mdGet m "description" "") a)) ∧
    (stepEv s (.save a)).saveCount = s.saveCount + 1 := by
  have hie : m.isEmpty = false := by
    cases m with
    | nil => exact absurd rfl hne
    | cons x xs => rfl
  constructor <;>
    simp [stepEv, hd, hdl, onReflectionResponse, ha, hm, hie, closeAct, realShutdown]

/-- Whatever the answer, resolving the dialog sets the completion flag
and re-enters `close`, which takes the real-shutdown branch: the shutdown
counter rises by exactly one and the instance is destroyed. -/
theorem onReflectionResponse_shutdown (s : ActState) (ans : Option String) :
    (onReflectionResponse s ans).shutdowns = s.shutdowns + 1 ∧
    (onReflectionResponse s ans).destroyed = true ∧
    (onReflectionResponse s ans).reflectionComplete = true := by
  unfold onReflectionResponse closeAct realShutdown
  cases ans with
  | none => simp
  | some a =>
    by_cases ha : a = ""
    · simp [ha]
    · cases hm : s.metadata with
      | none => simp [ha, hm]
      | some m => by_cases hmm : m.isEmpty <;> simp [ha, hm, hmm]

/-- Inserting into the descending-sorted list permutes consing. -/
theorem insertDesc_perm (e : RawEntry) (l : List RawEntry) :
    List.Perm (insertDesc e l) (e :: l) := by
  induction l with
  | nil => exact List.Perm.refl _
  | cons f fs ih =>
    simp only [insertDesc]
    by_cases hc : pyValGE (tsKey e) (tsKey f) = true
    · rw [if_pos hc]
    · rw [if_neg hc]
      exact List.Perm.trans (List.Perm.cons f ih) (List.Perm.swap e f fs)

/-- The descending sort is a permutation of its input. -/
theorem sortDesc_perm (l : List RawEntry) : List.Perm (sortDesc l) l := by
  induction l with
  | nil => exact List.Perm.refl _
  | cons e es ih =>
    exact List.Perm.trans (insertDesc_perm e (sortDesc es)) (List.Perm.cons e ih)

/-- On two numeric sort keys, the Python comparison is the numeric
comparison. -/
theorem pyValGE_int (x y : RawEntry) (hx : isIntTs x = true) (hy : isIntTs y = true) :
    pyValGE (tsKey x) (tsKey y) = decide (intKey y ≤ intKey x) := by
  unfold isIntTs at hx hy
  unfold intKey
  cases hkx : tsKey x with
  | int a =>
    cases hky : tsKey y with
    | int b => simp [pyValGE]
    | str s => rw [hky] at hy; simp at hy
  | str s => rw [hkx] at hx; simp at hx

/-- Inserting a numeric-keyed record into a descending-sorted list of
numeric-keyed records keeps it descending-sorted. -/
theorem insertDesc_sorted (e : RawEntry) (l : List RawEntry)
    (he : isIntTs e = true) (hl : ∀ f ∈ l, isIntTs f = true)
    (hs : l.Pairwise (fun a b => intKey b ≤ intKey a)) :
    (insertDesc e l).Pairwise (fun a b => intKey b ≤ intKey a) := by
  induction l with
  | nil => simp [insertDesc]
  | cons f fs ih =>
    have hf : isIntTs f = true := hl f (by simp)
    have hfs : ∀ g ∈ fs, isIntTs g = true := fun g hg => hl g (by simp [hg])
    rcases List.pairwise_cons.mp hs with ⟨hfall, hsfs⟩
    simp only [insertDesc]
    by_cases hc : pyValGE (tsKey e) (tsKey f) = true
    · rw [if_pos hc]
      rw [pyValGE_int e f he hf] at hc
      have hef : intKey f ≤ intKey e := of_decide_eq_true hc
      refine List.pairwise_cons.mpr ⟨?_, hs⟩
      intro g hg
      rcases List.mem_cons.mp hg with rfl | hg'
      · exact hef
      · exact le_trans (hfall g hg') hef
    · rw [if_neg hc]
      rw [pyValGE_int e f he hf] at hc
      have hfe : intKey e ≤ intKey f := by
        have hne : ¬ intKey f ≤ intKey e := by simpa using hc
        omega
      refine List.pairwise_cons.mpr ⟨?_, ih hfs hsfs⟩
      intro g hg
      have hg2 : g ∈ e :: fs := (insertDesc_perm e fs).mem_iff.mp hg
      rcases List.mem_cons.mp hg2 with rfl | hg'
      · exact hfe
      · exact hfall g hg'

/-- The descending sort of a list of numeric-keyed records is
descending-sorted. -/
theorem sortDesc_sorted (l : List RawEntry) (hl : ∀ e ∈ l, isIntTs e = true) :
    (sortDesc l).Pairwise (fun a b => intKey b ≤ intKey a) := by
  induction l with
  | nil => simp [sortDesc]
  | cons e es ih =>
    have hes : ∀ f ∈ es, isIntTs f = true := fun f hf => hl f (by simp [hf])
    have hmem : ∀ f ∈ sortDesc es, isIntTs f = true :=
      fun f hf => hes f ((sortDesc_perm es).mem_iff.mp hf)
    exact insertDesc_sorted e (sortDesc es) (hl e (by simp)) hmem (ih hes)

/-- A list whose sort keys are all numeric is homogeneous. -/
theorem homogTs_of_int (rs : List RawEntry) (h : ∀ e ∈ rs, isIntTs e = true) :
    homogTs rs = true := by
  unfold homogTs
  have : rs.all isIntTs = true := List.all_eq_true.mpr h
  simp [this]

/-- The converted summary of a record with a numeric sort key. -/
def convOk (e : RawEntry) : HistEntry :=
  { title := some (e.title.getD "Untitled"),
    description := some (e.description.getD ""),
    timestamp := some (intKey e),
    time := some (ctimeModel (intKey e)) }

/-- Conversion cannot raise on records with numeric sort keys. -/
theorem mapConvert_allInt (l : List RawEntry) (h : ∀ e ∈ l, isIntTs e = true) :
    mapConvert l = .ok (l.map convOk) := by
  induction l with
  | nil => rfl
  | cons e es ih =>
    have he : isIntTs e = true := h e (by simp)
    have hconv : convertEntry e = .ok (convOk e) := by
      unfold convertEntry convOk
      unfold isIntTs at he
      cases hk : tsKey e with
      | int n => simp [pyFloat, hk, intKey]
      | str s => rw [hk] at he; simp at he
    rw [mapConvert, hconv, ih (fun f hf => h f (by simp [hf]))]
    rfl

/-- Invariant tying the shutdown counter to instance destruction: a live
instance has never shut down, and a destroyed one shut down exactly
once. -/
def shutInv (st : ActState) : Prop :=
  (st.shutdowns = 0 ∧ st.destroyed = false) ∨ (st.shutdowns = 1 ∧ st.destroyed = true)

/-- Every event preserves the shutdown invariant. -/
theorem stepEv_shutInv (st : ActState) (e : Ev) (h : shutInv st) : shutInv (stepEv st e) := by
  rcases h with ⟨hs, hd⟩ | ⟨hs, hd⟩
  · cases e with
    | close sk =>
      by_cases hc : (st.reflectionComplete || sk) = true
      · right
        simp [stepEv, hd, closeAct, hc, realShutdown, hs]
      · left
        simp [stepEv, hd, closeAct, hc, hs]
    | promptReady =>
      cases hp : st.pending with
      | nil => left; simp [stepEv, hd, hp, hs]
      | cons c rest => left; simp [stepEv, hd, hp, hs]
    | save t =>
      cases hdl : st.dialogs with
      | nil => left; simp [stepEv, hd, hdl, hs]
      | cons q rest =>
        right
        have h3 := onReflectionResponse_shutdown { st with dialogs := rest } (some t)
        rw [hd] at h3
        simp only [stepEv, hd, hdl]
        simp only [Bool.false_eq_true, if_false]
        refine ⟨?_, h3.2.1⟩
        rw [h3.1]
        simp [hs]
    | skip =>
      cases hdl : st.dialogs with
      | nil => left; simp [stepEv, hd, hdl, hs]
      | cons q rest =>
        right
        have h3 := onReflectionResponse_shutdown { st with dialogs := rest } none
        rw [hd] at h3
        simp only [stepEv, hd, hdl]
        simp only [Bool.false_eq_true, if_false]
        refine ⟨?_, h3.2.1⟩
        rw [h3.1]
        simp [hs]
  · rcases e <;> simp [stepEv, hd, shutInv, hs]

/-- Every event sequence preserves the shutdown invariant. -/
theorem run_shutInv (st : ActState) (es : List Ev) (h : shutInv st) : shutInv (run st es) := by
  induction es generalizing st with
  | nil => exact h
  | cons e rest ih => exact ih _ (stepEv_shutInv st e h)

/-- C1: across every event sequence delivered to a fresh activity
instance, the real shutdown procedure `activity.Activity.close` fires at
most once; it has fired exactly once precisely when the instance is
destroyed (the end of the instance's lifetime); and any step that
performs a real shutdown either leaves the completion flag true at that
moment or is a close call with `skip_save=True`. -/
theorem shutdown_once_and_guarded :
    (∀ (b : Option String) (s : Except Unit (List RawEntry)) (m : Option Metadata)
        (es : List Ev),
      (run (initState b s m) es).shutdowns ≤ 1 ∧
      ((run (initState b s m) es).shutdowns = 1 ↔
        (run (initState b s m) es).destroyed = true)) ∧
    (∀ (st : ActState) (e : Ev), st.shutdowns < (stepEv st e).shutdowns →
      (stepEv st e).reflectionComplete = true ∨ e = .close true) := by
  constructor
  · intro b s m es
    have hinv : shutInv (run (initState b s m) es) :=
      run_shutInv _ es (Or.inl (by simp [initState]))
    rcases hinv with ⟨h1, h2⟩ | ⟨h1, h2⟩ <;>
      exact ⟨by omega, by simp [h1, h2]⟩
  · intro st e h
    cases hd : st.destroyed with
    | true =>
      exfalso
      simp [stepEv, hd] at h
    | false =>
      cases e with
      | close sk =>
        by_cases hrc : st.reflectionComplete = true
        · left
          have hor : (st.reflectionComplete || sk) = true := by rw [hrc]; exact Bool.true_or sk
          simp [stepEv, hd, closeAct, hor, realShutdown, hrc]
        · have hrc2 : st.reflectionComplete = false := by
            cases hb : st.reflectionComplete with
            | true => exact absurd hb hrc
            | false => rfl
          cases sk with
          | true => right; rfl
          | false =>
            exfalso
            simp [stepEv, hd, closeAct, hrc2] at h
      | promptReady =>
        exfalso
        cases hp : st.pending <;> simp [stepEv, hd, hp] at h
      | save t =>
        cases hdl : st.dialogs with
        | nil => exfalso; simp [stepEv, hd, hdl] at h
        | cons q rest =>
          left
          have h3 := onReflectionResponse_shutdown { st with dialogs := rest } (some t)
          rw [hd] at h3
          simp only [stepEv, hd, hdl, Bool.false_eq_true, if_false]
          exact h3.2.2
      | skip =>
        cases hdl : st.dialogs with
        | nil => exfalso; simp [stepEv, hd, hdl] at h
        | cons q rest =>
          left
          have h3 := onReflectionResponse_shutdown { st with dialogs := rest } none
          rw [hd] at h3
          simp only [stepEv, hd, hdl, Bool.false_eq_true, if_false]
          exact h3.2.2

/-- Witness for C1: a concrete full close flow shuts down exactly once,
and a concrete guarded step is exercised. -/
theorem shutdown_once_and_guarded_witness :
    ((run (initState none (.ok []) none) [.close false, .promptReady, .skip]).shutdowns ≤ 1 ∧
      ((run (initState none (.ok []) none) [.close false, .promptReady, .skip]).shutdowns = 1 ↔
        (run (initState none (.ok []) none) [.close false, .promptReady, .skip]).destroyed = true)) ∧
    ((stepEv (initState none (.ok []) none) (.close true)).reflectionComplete = true ∨
      Ev.close true = Ev.close true) :=
  ⟨shutdown_once_and_guarded.1 none (.ok []) none [.close false, .promptReady, .skip],
   shutdown_once_and_guarded.2 (initState none (.ok []) none) (.close true) (by decide)⟩

/-- C2: prompt generation is a case split on history length: at most one
entry yields exactly the fixed generic prompt; at least two entries yield
a prompt containing the second entry's title (default `'this activity'`)
and the second entry's time string (default `'before'`). -/
theorem prompt_generation_case_split :
    (∀ c : Ctx, c.history.length ≤ 1 →
      mockApiResponse c = "This looks like a new project! what are you planning to make?") ∧
    (∀ (c : Ctx) (e0 e1 : HistEntry) (rest : List HistEntry),
      c.history = e0 :: e1 :: rest →
      strContains (mockApiResponse c) (e1.title.getD "this activity") ∧
      strContains (mockApiResponse c) (e1.time.getD "before")) := by
  constructor
  · intro c hc
    cases hh : c.history with
    | nil => simp [mockApiResponse, hh, genericPrompt]
    | cons e0 t =>
      cases t with
      | nil => simp [mockApiResponse, hh, genericPrompt]
      | cons e1 rest =>
        rw [hh] at hc
        simp at hc
  · intro c e0 e1 rest hh
    constructor
    · refine ⟨"I see you worked on '",
        "' previously. How is your work today different from what you did on " ++
          (e1.time.getD "before") ++ "?", ?_⟩
      simp [mockApiResponse, hh, comparisonPrompt, String.append_assoc]
    · refine ⟨"I see you worked on '" ++ (e1.title.getD "this activity") ++
        "' previously. How is your work today different from what you did on ", "?", ?_⟩
      simp [mockApiResponse, hh, comparisonPrompt, String.append_assoc]

/-- Witness for C2 at concrete contexts. -/
theorem prompt_generation_case_split_witness :
    mockApiResponse { history := [], currentState := "s" } =
      "This looks like a new project! what are you planning to make?" ∧
    (strContains
      (mockApiResponse { history :=
        [{}, { title := some "Art Project", time := some "T" }], currentState := "s" })
      (Option.getD (some "Art Project") "this activity") ∧
     strContains
      (mockApiResponse { history :=
        [{}, { title := some "Art Project", time := some "T" }], currentState := "s" })
      (Option.getD (some "T") "before")) :=
  ⟨prompt_generation_case_split.1 { history := [], currentState := "s" } (by decide),
   prompt_generation_case_split.2 { history :=
        [{}, { title := some "Art Project", time := some "T" }], currentState := "s" }
     {} { title := some "Art Project", time := some "T" } [] rfl⟩

/-- C6: resolving the dialog with Skip leaves the metadata mapping (hence
the description and every other field) unchanged and the save counter
untouched, yet sets the completion flag and re-enters `close`, which
performs the real shutdown. -/
theorem skip_preserves_metadata (st : ActState) (q : String) (rest : List String)
    (hd : st.destroyed = false) (hdl : st.dialogs = q :: rest) :
    (stepEv st .skip).metadata = st.metadata ∧
    (stepEv st .skip).saveCount = st.saveCount ∧
    (stepEv st .skip).reflectionComplete = true ∧
    (stepEv st .skip).shutdowns = st.shutdowns + 1 ∧
    (stepEv st .skip).destroyed = true := by
  simp [stepEv, hd, hdl, onReflectionResponse, closeAct, realShutdown]

/-- Witness for C6 at a concrete instance. -/
theorem skip_preserves_metadata_witness :
    (stepEv { initState none (.ok []) (some [("description", "x")]) with
        dialogs := ["q"] } .skip).metadata = some [("description", "x")] ∧
    (stepEv { initState none (.ok []) (some [("description", "x")]) with
        dialogs := ["q"] } .skip).saveCount = 0 ∧
    (stepEv { initState none (.ok []) (some [("description", "x")]) with
        dialogs := ["q"] } .skip).reflectionComplete = true ∧
    (stepEv { initState none (.ok []) (some [("description", "x")]) with
        dialogs := ["q"] } .skip).shutdowns = 0 + 1 ∧
    (stepEv { initState none (.ok []) (some [("description", "x")]) with
        dialogs := ["q"] } .skip).destroyed = true :=
  skip_preserves_metadata
    { initState none (.ok []) (some [("description", "x")]) with dialogs := ["q"] }
    "q" [] (by decide) rfl

/-- C10: when the metadata mapping is falsy (absent or the empty dict) at
dialog resolution with a non-empty answer, the answer is silently
discarded — metadata and save counter unchanged — while the completion
flag is still set and the re-entered `close` performs the real
shutdown. -/
theorem falsy_metadata_discards_answer (st : ActState) (a q : String) (rest : List String)
    (hd : st.destroyed = false) (hdl : st.dialogs = q :: rest)
    (ha : a ≠ "") (hm : mdTruthy st.metadata = false) :
    (stepEv st (.save a)).metadata = st.metadata ∧
    (stepEv st (.save a)).saveCount = st.saveCount ∧
    (stepEv st (.save a)).reflectionComplete = true ∧
    (stepEv st (.save a)).shutdowns = st.shutdowns + 1 ∧
    (stepEv st (.save a)).destroyed = true := by
  cases hmm : st.metadata with
  | none => simp [stepEv, hd, hdl, onReflectionResponse, ha, hmm, closeAct, realShutdown]
  | some m =>
    have hie : m.isEmpty = true := by
      rw [hmm] at hm
      simpa [mdTruthy] using hm
    simp [stepEv, hd, hdl, onReflectionResponse, ha, hmm, hie, closeAct, realShutdown]

/-- Witness for C10 at a concrete instance whose metadata is the empty
dict. -/
theorem falsy_metadata_discards_answer_witness :
    (stepEv { initState none (.ok []) (some []) with dialogs := ["q"] }
        (.save "hello")).metadata = some [] ∧
    (stepEv { initState none (.ok []) (some []) with dialogs := ["q"] }
        (.save "hello")).saveCount = 0 ∧
    (stepEv { initState none (.ok []) (some []) with dialogs := ["q"] }
        (.save "hello")).reflectionComplete = true ∧
    (stepEv { initState none (.ok []) (some []) with dialogs := ["q"] }
        (.save "hello")).shutdowns = 0 + 1 ∧
    (stepEv { initState none (.ok []) (some []) with dialogs := ["q"] }
        (.save "hello")).destroyed = true :=
  falsy_metadata_discards_answer
    { initState none (.ok []) (some []) with dialogs := ["q"] }
    "hello" "q" [] (by decide) rfl (by decide) (by decide)

/-- Concrete instance whose metadata mapping is non-empty but has no
description binding (so the prior description reads as empty). -/
def c4State : ActState :=
  { reflectionComplete := false, metadata := some [("title", "Hello")], saveCount := 0,
    pending := [], dialogs := ["q"], shutdowns := 0, destroyed := false,
    bundleId := none, store := .ok [], tick := 0 }

/-- C4 counterexample: with the present non-absent answer `"hi"` and an
empty prior description, the code produces a description with no
`'\n\n'` separator prefix, so the claim's unconditional
old-plus-separator-plus-answer form fails. -/
theorem append_rule_counterexample :
    descOf (stepEv c4State (.save "hi")) = "--- Reflection ---\nhi" ∧
    descOf c4State = "" ∧
    descOf (stepEv c4State (.save "hi")) ≠
      descOf c4State ++ "\n\n--- Reflection ---\n" ++ "hi" :=
  ⟨by decide, by decide, by decide⟩

/-- C4 amended: when the dialog resolves with a non-empty answer and the
metadata mapping is non-empty, the new description is the old
description, followed by `'\n\n'` only when the old description was
non-empty, followed by the marker line and the answer, and the metadata
is persisted via `save()`. -/
theorem save_appends_conditional_separator (st : ActState) (a q : String)
    (rest : List String) (m : Metadata)
    (hd : st.destroyed = false) (hdl : st.dialogs = q :: rest)
    (ha : a ≠ "") (hm : st.metadata = some m) (hne : m ≠ []) :
    descOf (stepEv st (.save a)) =
      (if descOf st = "" then "" else descOf st ++ "\n\n") ++
        ("--- Reflection ---\n" ++ a) ∧
    (stepEv st (.save a)).saveCount = st.saveCount + 1 := by
  obtain ⟨hmeta, hsc⟩ := save_step_meta st a q rest m hd hdl ha hm hne
  refine ⟨?_, hsc⟩
  simp only [descOf, hmeta, hm, Option.getD_some, mdGet_mdSet_same]
  by_cases hx : mdGet m "description" "" = "" <;> simp [appendReflection, hx]

/-- Witness for the amended C4 at a concrete instance with a non-empty
prior description. -/
theorem save_appends_conditional_separator_witness :
    descOf (stepEv { initState none (.ok []) (some [("description", "old")]) with
        dialogs := ["q"] } (.save "hi")) =
      (if descOf { initState none (.ok []) (some [("description", "old")]) with
          dialogs := ["q"] } = ""
        then ""
        else descOf { initState none (.ok []) (some [("description", "old")]) with
          dialogs := ["q"] } ++ "\n\n") ++
        ("--- Reflection ---\n" ++ "hi") ∧
    (stepEv { initState none (.ok []) (some [("description", "old")]) with
        dialogs := ["q"] } (.save "hi")).saveCount = 0 + 1 :=
  save_appends_conditional_separator
    { initState none (.ok []) (some [("description", "old")]) with dialogs := ["q"] }
    "hi" "q" [] [("description", "old")] (by decide) rfl (by decide) rfl (by decide)

/-- Concrete instance with a non-empty prior description, used to show
what an empty Save answer does. -/
def c5State : ActState :=
  { reflectionComplete := false, metadata := some [("description", "x")], saveCount := 0,
    pending := [], dialogs := ["q"], shutdowns := 0, destroyed := false,
    bundleId := none, store := .ok [], tick := 0 }

/-- C5 counterexample: resolving Save with the empty string leaves the
description unchanged and triggers no save, contradicting the claim that
the empty string is appended under the append rule like any other
answer. -/
theorem empty_save_counterexample :
    descOf (stepEv c5State (.save "")) = "x" ∧
    (stepEv c5State (.save "")).saveCount = 0 ∧
    descOf (stepEv c5State (.save "")) ≠
      descOf c5State ++ "\n\n--- Reflection ---\n" ++ "" :=
  ⟨by decide, by decide, by decide⟩

/-- C5 amended: pressing Save with the field empty resolves the callback
with the empty string, but the source's truthiness guard discards it: the
metadata mapping and save counter are unchanged, while the completion
flag is still set and the real shutdown still follows. -/
theorem empty_save_discarded (st : ActState) (q : String) (rest : List String)
    (hd : st.destroyed = false) (hdl : st.dialogs = q :: rest) :
    (stepEv st (.save "")).metadata = st.metadata ∧
    (stepEv st (.save "")).saveCount = st.saveCount ∧
    (stepEv st (.save "")).reflectionComplete = true ∧
    (stepEv st (.save "")).shutdowns = st.shutdowns + 1 ∧
    (stepEv st (.save "")).destroyed = true := by
  simp [stepEv, hd, hdl, onReflectionResponse, closeAct, realShutdown]

/-- Witness for the amended C5 at a concrete instance. -/
theorem empty_save_discarded_witness :
    (stepEv { initState none (.ok []) (some [("description", "y")]) with
        dialogs := ["q"] } (.save "")).metadata = some [("description", "y")] ∧
    (stepEv { initState none (.ok []) (some [("description", "y")]) with
        dialogs := ["q"] } (.save "")).saveCount = 0 ∧
    (stepEv { initState none (.ok []) (some [("description", "y")]) with
        dialogs := ["q"] } (.save "")).reflectionComplete = true ∧
    (stepEv { initState none (.ok []) (some [("description", "y")]) with
        dialogs := ["q"] } (.save "")).shutdowns = 0 + 1 ∧
    (stepEv { initState none (.ok []) (some [("description", "y")]) with
        dialogs := ["q"] } (.save "")).destroyed = true :=
  empty_save_discarded
    { initState none (.ok []) (some [("description", "y")]) with dialogs := ["q"] }
    "q" [] (by decide) rfl

/-- C7: a falsy activity kind identifier (absent or empty bundle id)
makes the history fetch return empty for every store behaviour, i.e.
without consulting the store; a store query error yields empty; any
raised error in the fetch body is caught and yields empty; and the empty
history produced by a failing store yields the generic prompt. -/
theorem history_errors_yield_empty :
    (∀ store : Except Unit (List RawEntry),
      fetchHistory none store = [] ∧ fetchHistory (some "") store = []) ∧
    (∀ bundleId : Option String, fetchHistory bundleId (.error ()) = []) ∧
    (∀ (bundleId : Option String) (store : Except Unit (List RawEntry)),
      fetchHistoryE bundleId store = .error () → fetchHistory bundleId store = []) ∧
    (∀ (bundleId : Option String) (cs : String),
      mockApiResponse { history := fetchHistory bundleId (.error ()), currentState := cs } =
        genericPrompt) := by
  have h2 : ∀ bundleId : Option String, fetchHistory bundleId (.error ()) = [] := by
    intro b
    unfold fetchHistory fetchHistoryE
    by_cases hb : b.getD "" = "" <;> simp [hb]
  refine ⟨?_, h2, ?_, ?_⟩
  · intro store
    constructor <;> simp [fetchHistory, fetchHistoryE]
  · intro b store h
    unfold fetchHistory
    rw [h]
  · intro b cs
    rw [h2 b]
    rfl

/-- Witness for C7 at concrete inputs, exercising the hypothesis of the
catch-all conjunct with a concrete raised error. -/
theorem history_errors_yield_empty_witness :
    fetchHistory (some "org.x") (.error ()) = [] ∧
    (fetchHistoryE (some "org.x") (.error ()) = .error () →
      fetchHistory (some "org.x") (.error ()) = []) ∧
    mockApiResponse
      { history := fetchHistory (some "org.x") (.error ()), currentState := "now" } =
      genericPrompt :=
  ⟨history_errors_yield_empty.2.1 (some "org.x"),
   history_errors_yield_empty.2.2.1 (some "org.x") (.error ()),
   history_errors_yield_empty.2.2.2 (some "org.x") "now"⟩

/-- A close request on a live, not-yet-complete instance changes only the
pending queue and the clock: counting form. -/
theorem close_counts (s : ActState) (h1 : s.reflectionComplete = false)
    (hd : s.destroyed = false) :
    (stepEv s (.close false)).destroyed = false ∧
    (stepEv s (.close false)).reflectionComplete = false ∧
    (stepEv s (.close false)).shutdowns = s.shutdowns ∧
    (stepEv s (.close false)).dialogs = s.dialogs ∧
    (stepEv s (.close false)).pending.length = s.pending.length + 1 := by
  simp [stepEv, hd, closeAct, h1]

/-- C9: a second `close(skip_save=False)` while a first flow is in flight
(completion flag still unset) does not shut down; it re-fetches history
and schedules a second prompt callback, and when both scheduled callbacks
fire, two dialogs are open: a duplicate concurrent flow. -/
theorem reentrant_close_second_flow (st : ActState)
    (h1 : st.reflectionComplete = false) (hd : st.destroyed = false) :
    (stepEv st (.close false)).shutdowns = st.shutdowns ∧
    (stepEv st (.close false)).pending =
      st.pending ++ [⟨fetchHistory st.bundleId st.store, currentStateNote st.tick⟩] ∧
    (run st [.close false, .close false, .promptReady, .promptReady]).dialogs.length =
      st.dialogs.length + 2 ∧
    (run st [.close false, .close false, .promptReady, .promptReady]).shutdowns =
      st.shutdowns := by
  have e1 := close_noflag st h1 hd
  obtain ⟨a1, a2, a3, a4, a5⟩ := close_counts st h1 hd
  obtain ⟨b1, b2, b3, b4, b5⟩ := close_counts _ a2 a1
  have hp2 : (stepEv (stepEv st (.close false)) (.close false)).pending ≠ [] := by
    apply List.length_pos.mp
    rw [b5]
    omega
  obtain ⟨c1, c2, c3, c4⟩ := promptReady_counts _ b1 hp2
  have hp3 : (stepEv (stepEv (stepEv st (.close false)) (.close false))
      .promptReady).pending ≠ [] := by
    apply List.length_pos.mp
    rw [b5, a5] at c4
    omega
  obtain ⟨d1, d2, d3, d4⟩ := promptReady_counts _ c1 hp3
  refine ⟨a3, by rw [e1], ?_, ?_⟩
  · show (stepEv (stepEv (stepEv (stepEv st (.close false)) (.close false))
      .promptReady) .promptReady).dialogs.length = st.dialogs.length + 2
    rw [d3, c3, b4, a4]
  · show (stepEv (stepEv (stepEv (stepEv st (.close false)) (.close false))
      .promptReady) .promptReady).shutdowns = st.shutdowns
    rw [d2, c2, b3, a3]

/-- Witness for C9 at a fresh concrete instance. -/
theorem reentrant_close_second_flow_witness :
    (stepEv (initState none (.ok []) (some [("t", "v")])) (.close false)).shutdowns =
      (initState none (.ok []) (some [("t", "v")])).shutdowns ∧
    (stepEv (initState none (.ok []) (some [("t", "v")])) (.close false)).pending =
      (initState none (.ok []) (some [("t", "v")])).pending ++
        [⟨fetchHistory (initState none (.ok []) (some [("t", "v")])).bundleId
            (initState none (.ok []) (some [("t", "v")])).store,
          currentStateNote (initState none (.ok []) (some [("t", "v")])).tick⟩] ∧
    (run (initState none (.ok []) (some [("t", "v")]))
        [.close false, .close false, .promptReady, .promptReady]).dialogs.length =
      (initState none (.ok []) (some [("t", "v")])).dialogs.length + 2 ∧
    (run (initState none (.ok []) (some [("t", "v")]))
        [.close false, .close false, .promptReady, .promptReady]).shutdowns =
      (initState none (.ok []) (some [("t", "v")])).shutdowns :=
  reentrant_close_second_flow (initState none (.ok []) (some [("t", "v")])) rfl rfl

/-- Unfolding of a reflection append onto a non-empty description. -/
theorem appendReflection_of_ne (d a : String) (h : d ≠ "") :
    appendReflection d a = d ++ "\n\n" ++ ("--- Reflection ---\n" ++ a) := by
  simp [appendReflection, h]

/-- Re-association of the separator against the marker line. -/
theorem merge_sep (x : String) :
    ("\n\n" : String) ++ ("--- Reflection ---\n" ++ x) = "\n\n--- Reflection ---\n" ++ x := by
  rw [← String.append_assoc]
  have h : ("\n\n" ++ "--- Reflection ---\n" : String) = "\n\n--- Reflection ---\n" := by decide
  rw [h]

/-- Two consecutive reflection appends concatenate both answers, each
after its own marker line, in order, never losing the original
content. -/
theorem appendReflection_twice (d a1 a2 : String) :
    appendReflection (appendReflection d a1) a2 =
      (if d = "" then "" else d ++ "\n\n") ++ "--- Reflection ---\n" ++ a1 ++
        "\n\n" ++ "--- Reflection ---\n" ++ a2 := by
  rw [appendReflection_of_ne _ a2 (appendReflection_ne_empty d a1)]
  by_cases hd : d = "" <;>
    simp [appendReflection, hd, String.append_assoc, merge_sep]

/-- One complete close flow from a fresh instance: close request, prompt
callback, Save with a non-empty answer.  The description binding is
rewritten to the appended reflection, one save and one real shutdown
happen, and the instance ends destroyed. -/
theorem full_cycle (b : Option String) (s : Except Unit (List RawEntry)) (m : Metadata)
    (a : String) (ha : a ≠ "") (hne : m ≠ []) :
    run (initState b s (some m)) [.close false, .promptReady, .save a] =
      { reflectionComplete := true,
        metadata := some (mdSet m "description"
          (appendReflection (mdGet m "description" "") a)),
        saveCount := 1, pending := [], dialogs := [], shutdowns := 1, destroyed := true,
        bundleId := b, store := s, tick := 1 } := by
  have hie : m.isEmpty = false := by
    cases m with
    | nil => exact absurd rfl hne
    | cons x xs => rfl
  simp [run, initState, stepEv, closeAct, onReflectionResponse, realShutdown, ha, hie]

/-- After a close request and the prompt callback, exactly one dialog is
open, showing the prompt generated from the fetched history. -/
theorem two_step_dialog (b : Option String) (s : Except Unit (List RawEntry))
    (md : Option Metadata) :
    (run (initState b s md) [.close false, .promptReady]).dialogs =
      [mockApiResponse ⟨fetchHistory b s, currentStateNote 0⟩] := by
  simp [run, initState, stepEv, closeAct]

/-- C3: saving `"hello"` leaves the description ending with the marker
and the answer; a fresh instance with empty prior description shows the
generic prompt when its store is empty and ends with description exactly
`"--- Reflection ---\ntest"` after saving `"test"`, with exactly one real
shutdown; and two Save resolutions across two full close cycles (the
second instance resuming the metadata the first persisted) concatenate
both answers, each after its own marker, in order, never losing prior
content. -/
theorem reflection_save_accumulates :
    (∀ (st : ActState) (q : String) (rest : List String) (m : Metadata),
      st.destroyed = false → st.dialogs = q :: rest → st.metadata = some m → m ≠ [] →
      strEndsWith (descOf (stepEv st (.save "hello"))) "--- Reflection ---\nhello") ∧
    (∀ (b : Option String) (m : Metadata), m ≠ [] → mdGet m "description" "" = "" →
      (run (initState b (.ok []) (some m)) [.close false, .promptReady]).dialogs =
        [genericPrompt] ∧
      descOf (run (initState b (.ok []) (some m))
        [.close false, .promptReady, .save "test"]) = "--- Reflection ---\ntest" ∧
      (run (initState b (.ok []) (some m))
        [.close false, .promptReady, .save "test"]).shutdowns = 1) ∧
    (∀ (b1 b2 : Option String) (s1 s2 : Except Unit (List RawEntry)) (m : Metadata)
        (a1 a2 : String), m ≠ [] → a1 ≠ "" → a2 ≠ "" →
      descOf (run (reopen (run (initState b1 s1 (some m))
          [.close false, .promptReady, .save a1]) b2 s2)
        [.close false, .promptReady, .save a2]) =
        (if mdGet m "description" "" = "" then ""
          else mdGet m "description" "" ++ "\n\n") ++
          "--- Reflection ---\n" ++ a1 ++ "\n\n" ++ "--- Reflection ---\n" ++ a2) := by
  refine ⟨?_, ?_, ?_⟩
  · intro st q rest m hd hdl hm hne
    obtain ⟨hmeta, _⟩ := save_step_meta st "hello" q rest m hd hdl (by decide) hm hne
    refine ⟨if mdGet m "description" "" = "" then mdGet m "description" ""
      else mdGet m "description" "" ++ "\n\n", ?_⟩
    simp only [descOf, hmeta, Option.getD_some, mdGet_mdSet_same]
    simp only [appendReflection]
    rw [show ("--- Reflection ---\n" ++ "hello" : String) = "--- Reflection ---\nhello"
      from by decide]
  · intro b m hne hdesc
    refine ⟨?_, ?_, ?_⟩
    · rw [two_step_dialog, fetchHistory_ok_nil]
      rfl
    · rw [full_cycle b (.ok []) m "test" (by decide) hne]
      simp only [descOf, Option.getD_some, mdGet_mdSet_same]
      rw [hdesc]
      decide
    · rw [full_cycle b (.ok []) m "test" (by decide) hne]
  · intro b1 b2 s1 s2 m a1 a2 hne ha1 ha2
    rw [full_cycle b1 s1 m a1 ha1 hne]
    have hne1 : mdSet m "description" (appendReflection (mdGet m "description" "") a1) ≠ [] :=
      mdSet_ne_nil _ _ _
    change descOf (run (initState b2 s2 (some (mdSet m "description"
      (appendReflection (mdGet m "description" "") a1))))
      [.close false, .promptReady, .save a2]) = _
    rw [full_cycle b2 s2 _ a2 ha2 hne1]
    simp only [descOf, Option.getD_some, mdGet_mdSet_same]
    exact appendReflection_twice (mdGet m "description" "") a1 a2

/-- Witness for C3 at concrete instances. -/
theorem reflection_save_accumulates_witness :
    strEndsWith (descOf (stepEv { initState none (.ok []) (some [("description", "d")]) with
      dialogs := ["q"] } (.save "hello"))) "--- Reflection ---\nhello" ∧
    ((run (initState none (.ok []) (some [("title", "t")]))
        [.close false, .promptReady]).dialogs = [genericPrompt] ∧
      descOf (run (initState none (.ok []) (some [("title", "t")]))
        [.close false, .promptReady, .save "test"]) = "--- Reflection ---\ntest" ∧
      (run (initState none (.ok []) (some [("title", "t")]))
        [.close false, .promptReady, .save "test"]).shutdowns = 1) ∧
    descOf (run (reopen (run (initState none (.ok []) (some [("title", "t")]))
        [.close false, .promptReady, .save "one"]) none (.ok []))
      [.close false, .promptReady, .save "two"]) =
      (if mdGet [("title", "t")] "description" "" = "" then ""
        else mdGet [("title", "t")] "description" "" ++ "\n\n") ++
        "--- Reflection ---\n" ++ "one" ++ "\n\n" ++ "--- Reflection ---\n" ++ "two" :=
  ⟨reflection_save_accumulates.1
      { initState none (.ok []) (some [("description", "d")]) with dialogs := ["q"] }
      "q" [] [("description", "d")] (by decide) rfl rfl (by decide),
   reflection_save_accumulates.2.1 none [("title", "t")] (by decide) (by decide),
   reflection_save_accumulates.2.2 none none (.ok []) (.ok []) [("title", "t")] "one" "two"
     (by decide) (by decide) (by decide)⟩

/-- Record whose raw timestamp is a non-numeric string. -/
def unparseableEntry : RawEntry :=
  { title := some "Old", timestamp := some (.str "abc") }

/-- C8 counterexample: a successful store result holding one record with
the unparseable timestamp `"abc"`.  The claim requires that record to be
kept in the result, sorted as timestamp 0; instead the `float('abc')`
conversion raises, the handler catches, and the whole fetch returns the
empty list. -/
theorem unparseable_timestamp_counterexample :
    fetchHistory (some "org.sugarlabs.HelloWorld") (.ok [unparseableEntry]) = [] ∧
    ¬ ∃ h : HistEntry,
      fetchHistory (some "org.sugarlabs.HelloWorld") (.ok [unparseableEntry]) = [h] ∧
      h.timestamp = some 0 := by
  have h0 : fetchHistory (some "org.sugarlabs.HelloWorld") (.ok [unparseableEntry]) = [] := by
    decide
  refine ⟨h0, ?_⟩
  rintro ⟨h, he, _⟩
  rw [h0] at he
  exact List.cons_ne_nil h [] he.symm

/-- C8 amended: for every successful store result in which each raw
timestamp is numeric or missing, the fetch returns the records stably
sorted newest first (missing timestamps sorting as 0), truncated to at
most five, and converted with their numeric timestamps; the sort keeps
every record (it is a permutation), so a missing-timestamp record is kept
with timestamp 0.  A record with an unparseable string timestamp is
instead dropped together with the whole result: the conversion error is
caught and the fetch returns the empty list. -/
theorem fetch_sorted_truncated (bid : String) (rs : List RawEntry)
    (hb : bid ≠ "") (h : ∀ e ∈ rs, isIntTs e = true) :
    fetchHistory (some bid) (.ok rs) = ((sortDesc rs).take 5).map convOk ∧
    (fetchHistory (some bid) (.ok rs)).length = min rs.length 5 ∧
    (fetchHistory (some bid) (.ok rs)).Pairwise
      (fun x y => y.timestamp.getD 0 ≤ x.timestamp.getD 0) ∧
    List.Perm (sortDesc rs) rs := by
  have hperm := sortDesc_perm rs
  have hmem : ∀ e ∈ sortDesc rs, isIntTs e = true := fun e he => h e (hperm.mem_iff.mp he)
  have htake : ∀ e ∈ (sortDesc rs).take 5, isIntTs e = true :=
    fun e he => hmem e ((List.take_sublist 5 _).subset he)
  have heq : fetchHistory (some bid) (.ok rs) = ((sortDesc rs).take 5).map convOk := by
    unfold fetchHistory fetchHistoryE
    simp [hb, pySortByTsDesc, homogTs_of_int rs h, mapConvert_allInt _ htake]
  refine ⟨heq, ?_, ?_, hperm⟩
  · rw [heq]
    simp only [List.length_map, List.length_take, hperm.length_eq]
    omega
  · rw [heq]
    have hsorted := sortDesc_sorted rs h
    have hsub : ((sortDesc rs).take 5).Pairwise (fun a b => intKey b ≤ intKey a) :=
      hsorted.sublist (List.take_sublist 5 _)
    rw [List.pairwise_map]
    exact hsub.imp (fun hab => by simpa [convOk] using hab)

/-- Concrete store result for the C8 witness: two numeric timestamps out
of order and one missing timestamp. -/
def numEntries : List RawEntry :=
  [{ title := some "A", timestamp := some (.int 5) },
   { title := some "B" },
   { title := some "C", timestamp := some (.int 9) }]

/-- Witness for the amended C8 at a concrete store result. -/
theorem fetch_sorted_truncated_witness :
    fetchHistory (some "org.x") (.ok numEntries) =
      ((sortDesc numEntries).take 5).map convOk ∧
    (fetchHistory (some "org.x") (.ok numEntries)).length = min numEntries.length 5 ∧
    (fetchHistory (some "org.x") (.ok numEntries)).Pairwise
      (fun x y => y.timestamp.getD 0 ≤ x.timestamp.getD 0) ∧
    List.Perm (sortDesc numEntries) numEntries :=
  fetch_sorted_truncated "org.x" numEntries (by decide) (by decide)

end HW
